import Mathlib

/-!
Verification development for the httpx-decorators library: a shallow
embedding of the declarative endpoint dispatch engine (src/client, the
`BaseHttpClient` class), the metadata manager (src/metadata), and the
supporting data model (src/types), together with theorems settling the
specified properties of request/response validation, hook processing,
error classification, URL parameter substitution, parameter-binding
registration and parameter injection.

JavaScript runtime values are modelled by the inductive `Val` (with an
explicit `vundefined` for `undefined`); thrown JavaScript values by `ErrVal`;
a Zod schema by its `parse` function returning either a canonical value,
a ZodError, or an arbitrary thrown value.  The per-call dispatch of
`createHttpMethod` is `callEndpoint`, which also records an event trace
(hook invocations and transport requests) so that properties such as
"the transport is never invoked" are directly statable.
-/

set_option autoImplicit false

namespace HttpxSpec

/-- A JavaScript runtime value: null, undefined, boolean, number (modelled
as an integer), string, array, or plain object (ordered field list, as
`Object.entries` exposes it). -/
inductive Val where
  | vnull
  | vundefined
  | vbool (b : Bool)
  | vnum (n : Int)
  | vstr (s : String)
  | varr (elems : List Val)
  | vobj (fields : List (String × Val))

/-- `typeof v === 'object' && v` (truthy object check used by the legacy
calling-convention detection; `null` is excluded by truthiness, arrays are
objects but carry no named field in this model). -/
def Val.isUndefinedVal : Val → Bool
  | .vundefined => true
  | _ => false

mutual

/-- JavaScript `String(v)` stringification, as used for header values and
URL path-parameter substitution. -/
def jsString : Val → String
  | .vnull => "null"
  | .vundefined => "undefined"
  | .vbool true => "true"
  | .vbool false => "false"
  | .vnum n => toString n
  | .vstr s => s
  | .varr elems => String.intercalate "," (jsStringElems elems)
  | .vobj _ => "[object Object]"

/-- Array elements under `Array.prototype.toString`: `null` and
`undefined` elements stringify to the empty string. -/
def jsStringElems : List Val → List String
  | [] => []
  | .vnull :: vs => "" :: jsStringElems vs
  | .vundefined :: vs => "" :: jsStringElems vs
  | v :: vs => jsString v :: jsStringElems vs

end

/-- Field lookup on a plain object field list: first entry wins, a missing
key reads as `undefined`. -/
def objGet (fields : List (String × Val)) (k : String) : Val :=
  match fields.find? (fun kv => kv.1 = k) with
  | some kv => kv.2
  | none => .vundefined

/-- The JavaScript `in` operator on a plain object: key presence,
regardless of the stored value. -/
def objHasKey (fields : List (String × Val)) (k : String) : Bool :=
  fields.any (fun kv => kv.1 = k)

/-! ### String utilities: `String.prototype.replace` with a string pattern
(first occurrence only) and `encodeURIComponent`, both used by
`executeRequest` for URL path-parameter substitution. -/

/-- Whether `pat` occurs at the start of `s` (character lists). -/
def startsWithPat : List Char → List Char → Bool
  | [], _ => true
  | _ :: _, [] => false
  | p :: ps, c :: cs => p == c && startsWithPat ps cs

/-- Replace the first occurrence of `pat` in `s` by `rep`; if `pat` does
not occur, `s` is returned unchanged — exactly the behaviour of the
JavaScript `String.prototype.replace` with a string pattern. -/
def replaceFirstL (pat rep : List Char) : List Char → List Char
  | [] => if startsWithPat pat [] then rep else []
  | c :: cs =>
    if startsWithPat pat (c :: cs) then rep ++ (c :: cs).drop pat.length
    else c :: replaceFirstL pat rep cs

/-- Whether `pat` occurs anywhere in `s`. -/
def occursInL (pat : List Char) : List Char → Bool
  | [] => startsWithPat pat []
  | c :: cs => startsWithPat pat (c :: cs) || occursInL pat cs

/-- `s.replace(pat, rep)` on strings (first occurrence only). -/
def jsReplace (s pat rep : String) : String :=
  String.mk (replaceFirstL pat.data rep.data s.data)

/-- Upper-case hexadecimal digit. -/
def hexDigit (n : Nat) : Char :=
  if n < 10 then Char.ofNat (48 + n) else Char.ofNat (55 + n)

/-- A percent-escaped byte, e.g. 32 ↦ `%20`. -/
def byteEscape (b : Nat) : List Char :=
  [Char.ofNat 37, hexDigit (b / 16), hexDigit (b % 16)]

/-- UTF-8 bytes of a Unicode code point. -/
def utf8Bytes (c : Nat) : List Nat :=
  if c < 0x80 then [c]
  else if c < 0x800 then [0xC0 + c / 0x40, 0x80 + c % 0x40]
  else if c < 0x10000 then
    [0xE0 + c / 0x1000, 0x80 + (c / 0x40) % 0x40, 0x80 + c % 0x40]
  else
    [0xF0 + c / 0x40000, 0x80 + (c / 0x1000) % 0x40,
     0x80 + (c / 0x40) % 0x40, 0x80 + c % 0x40]

/-- Characters `encodeURIComponent` leaves unescaped:
`A-Z a-z 0-9 - _ . ! ~ * ' ( )`. -/
def uriUnescaped (c : Char) : Bool :=
  (65 ≤ c.toNat && c.toNat ≤ 90) || (97 ≤ c.toNat && c.toNat ≤ 122) ||
  (48 ≤ c.toNat && c.toNat ≤ 57) ||
  c == '-' || c == '_' || c == '.' || c == '!' || c == '~' ||
  c == '*' || c == Char.ofNat 39 || c == '(' || c == ')'

/-- `encodeURIComponent(s)`: unescaped characters kept, every other
character percent-escaped byte by byte in UTF-8. -/
def encodeURIComponent (s : String) : String :=
  String.mk (s.data.foldr
    (fun c acc =>
      (if uriUnescaped c then [c] else
        (utf8Bytes c.toNat).foldr (fun b bs => byteEscape b ++ bs) []) ++ acc)
    [])

/-! ### Error taxonomy (src/types): `HttpDecoratorError` and its
subclasses, plus raw (non-taxonomy) thrown JavaScript values. -/

/-- The `type` tag of a `ValidationError`. -/
inductive VTag where
  | request
  | response
  deriving DecidableEq, Repr

/-- A user-declared error class, identified by its `name`. -/
structure ErrClass where
  name : String
  deriving DecidableEq, Repr

/-- A thrown JavaScript value as seen by the engine: the four
`HttpDecoratorError` subclasses of src/types (`ValidationError`,
`NetworkError`, `CustomError`, `ConfigurationError`), a bare
`HttpDecoratorError` with code `EXECUTION_ERROR` wrapping an original
error, a raw `Error` that is not an `HttpDecoratorError`, or a thrown
non-`Error` value (carried as its `String(·)` form). A `ZodError` of a
validator is modelled separately by `ParseOut.zodError`. -/
inductive ErrVal where
  | validation (tag : VTag) (zodId : Nat)
  | network (msg : String)
  | custom (typeName : String) (original : ErrVal)
  | configuration (msg : String)
  | execution (original : ErrVal)
  | rawError (msg : String)
  | rawValue (str : String)
  deriving DecidableEq, Repr

/-- `e instanceof HttpDecoratorError`. -/
def isHDE : ErrVal → Bool
  | .validation _ _ => true
  | .network _ => true
  | .custom _ _ => true
  | .configuration _ => true
  | .execution _ => true
  | .rawError _ => false
  | .rawValue _ => false

/-- `error instanceof Error ? error : new Error(String(error))`. -/
def asError : ErrVal → ErrVal
  | .rawValue s => .rawError s
  | e => e

/-- The stable `code` field of a taxonomy error (`none` for raw thrown
values, which carry no engine code). -/
def errCode : ErrVal → Option String
  | .validation _ _ => some "VALIDATION_ERROR"
  | .network _ => some "NETWORK_ERROR"
  | .custom _ _ => some "CUSTOM_ERROR"
  | .configuration _ => some "CONFIGURATION_ERROR"
  | .execution _ => some "EXECUTION_ERROR"
  | .rawError _ => none
  | .rawValue _ => none

/-! ### Schemas, policies, and the endpoint/client data model
(src/types, src/decorators). -/

/-- Outcome of `schema.parse(value)`: the canonical value, a `ZodError`
(identified by an id standing for its issue list), or an arbitrary other
thrown value (Zod validators may throw non-`ZodError` exceptions, which
the engine re-throws raw from its validation helpers). -/
inductive ParseOut where
  | ok (v : Val)
  | zodError (zodId : Nat)
  | thrown (e : ErrVal)

/-- A Zod schema, modelled by its `parse` function. -/
structure Schema where
  parse : Val → ParseOut

/-- An allow-policy for headers/query/params as declared on the decorator
config: absent, a boolean literal, or a string→boolean subset map. -/
inductive Policy where
  | undef
  | all (b : Bool)
  | subset (m : List (String × Bool))

/-- JavaScript truthiness of a policy value (`undefined` and `false`
falsy; any object, even empty, truthy). -/
def Policy.truthy : Policy → Bool
  | .undef => false
  | .all b => b
  | .subset _ => true

/-- A key-value bag (headers, query, or path params). -/
abbrev Bag := List (String × Val)

/-- Truthy lookup `configMap[key]` in a subset policy map (a missing key
reads as `undefined`, which is falsy). -/
def subsetAllows (m : List (String × Bool)) (k : String) : Bool :=
  match m.find? (fun kv => kv.1 = k) with
  | some kv => kv.2
  | none => false

/-- The role of one decorated parameter
(`@Response / @Query / @Headers / @Params / @Request`). -/
inductive ParameterType where
  | response
  | query
  | headers
  | params
  | request
  deriving DecidableEq, Repr

/-- `ParameterMetadata` (src/types): argument index, role, optional bag
key, optional per-parameter schema. -/
structure ParameterMetadata where
  index : Nat
  type : ParameterType
  key : Option String := none
  schema : Option Schema := none

/-- `HttpMethod` (src/types). -/
inductive HttpMethod where
  | get
  | post
  | put
  | delete
  | patch
  deriving DecidableEq, Repr

/-- `HttpDecoratorConfig` (src/types), after the decorator factory has
merged in its defaults; `validateRequest`/`validateResponse` are `none`
exactly when the written config held an explicit `undefined`. -/
structure DecoratorConfig where
  url : String
  requestSchema : Option Schema := none
  responseSchema : Option Schema := none
  errorType : Option ErrClass := none
  headers : Policy := .undef
  query : Policy := .undef
  params : Policy := .undef
  timeout : Option Nat := none
  validateRequest : Option Bool := some true
  validateResponse : Option Bool := some true
  mapper : Option (Val → Except ErrVal Val) := none

/-- `EndpointMetadata` (src/types): method, decorator config, and the
accumulated parameter bindings. -/
structure EndpointMetadata where
  method : HttpMethod
  config : DecoratorConfig
  parameters : List ParameterMetadata := []

/-- The merged `this.config` of `BaseHttpClient` (src/client): the
request/response validation defaults (the constructor spreads
`validateResponse: true, validateRequest: true` under the user config, so
`none` arises only from an explicit `undefined` in the user config) and
the optional `onError` interceptor hook.  The hook receives the raw axios
error (carried as its message) and either returns a recovery response or
itself throws. -/
structure ClientConfig where
  validateRequest : Option Bool := some true
  validateResponse : Option Bool := some true
  onMiss : Option (String → Except ErrVal Val) := none

/-- The constructor merge
`this.config = { validateResponse: true, validateRequest: true, ...config }`
for one flag: an absent key falls back to `true`; a present key (even an
explicit `undefined`) overrides. -/
def mergeFlag : Option (Option Bool) → Option Bool
  | none => some true
  | some u => u

/-- The nullish-coalescing chain `a ?? b` on optional booleans. -/
def nullishOr (a b : Option Bool) : Option Bool :=
  match a with
  | some x => some x
  | none => b

/-- JavaScript truthiness of `Option Bool` (`undefined` falsy). -/
def truthyOpt : Option Bool → Bool
  | some b => b
  | none => false

/-- `RequestContext` (src/types): the mutable per-call assembly.  The
`headers`/`query`/`params` fields are optional records (a hook may set
them to `undefined`); `body` is `vundefined` when absent. -/
structure RequestContext where
  method : HttpMethod
  url : String
  body : Val := .vundefined
  headers : Option Bag := none
  query : Option Bag := none
  params : Option Bag := none
  requestSchema : Option Schema := none
  responseSchema : Option Schema := none
  errorType : Option ErrClass := none
  timeout : Option Nat := none
  mapper : Option (Val → Except ErrVal Val) := none

/-! ### Request context construction (`buildRequestContextFromArgs`,
`buildRequestContextFromParams`, `processHeaders`, `processQuery`,
`processParams` of src/client). -/

/-- `processHeaders(headers, configHeaders)`: falsy policy or missing
headers give `{}`; policy `true` passes every entry through with
`String(value)`; a subset map keeps only the keys it marks truthy. -/
def processHeaders (headers : Option Bag) (cfg : Policy) : Bag :=
  match cfg, headers with
  | .undef, _ => []
  | .all false, _ => []
  | _, none => []
  | .all true, some h => h.map (fun kv => (kv.1, Val.vstr (jsString kv.2)))
  | .subset m, some h =>
    (h.filter (fun kv => subsetAllows m kv.1)).map
      (fun kv => (kv.1, Val.vstr (jsString kv.2)))

/-- `processQuery(query, configQuery)`: like headers but values are kept
raw (policy `true` returns the bag unchanged). -/
def processQuery (query : Option Bag) (cfg : Policy) : Bag :=
  match cfg, query with
  | .undef, _ => []
  | .all false, _ => []
  | _, none => []
  | .all true, some q => q
  | .subset m, some q => q.filter (fun kv => subsetAllows m kv.1)

/-- `processParams(params, configParams)`: identical shape to
`processQuery`. -/
def processParams (params : Option Bag) (cfg : Policy) : Bag :=
  match cfg, params with
  | .undef, _ => []
  | .all false, _ => []
  | _, none => []
  | .all true, some p => p
  | .subset m, some p => p.filter (fun kv => subsetAllows m kv.1)

/-- Read an object field as a bag: only a present object value yields a
bag; an absent field (or a non-object) reads as `undefined`. -/
def objGetBag (fields : List (String × Val)) (k : String) : Option Bag :=
  match objGet fields k with
  | .vobj b => some b
  | _ => none

/-- `buildRequestContextFromParams` (legacy convention): body taken
directly, the three bags run through their allow-policies. -/
def buildRequestContextFromParams (md : EndpointMetadata)
    (fields : List (String × Val)) : RequestContext :=
  { method := md.method
    url := md.config.url
    body := objGet fields "body"
    headers := some (processHeaders (objGetBag fields "headers") md.config.headers)
    query := some (processQuery (objGetBag fields "query") md.config.query)
    params := some (processParams (objGetBag fields "params") md.config.params)
    requestSchema := md.config.requestSchema
    responseSchema := md.config.responseSchema
    errorType := md.config.errorType
    timeout := md.config.timeout
    mapper := md.config.mapper }

/-- `args[i]` with out-of-range indices reading as `undefined`. -/
def argGet (args : List Val) (i : Nat) : Val :=
  (args.get? i).getD .vundefined

/-- The positional-leftover body: arguments at indices not covered by any
parameter binding; one leftover is the body itself, several form an
array, none leaves the body `undefined`. -/
def leftoverBody (md : EndpointMetadata) (args : List Val) : Val :=
  let decorated := md.parameters.map (fun p => p.index)
  let bodyArgs := ((List.range args.length).filter
    (fun i => decorated.contains i = false)).map (fun i => argGet args i)
  match bodyArgs with
  | [] => .vundefined
  | [x] => x
  | xs => .varr xs

/-- Body extraction in the decorator convention: a `@Request()` binding
supplies the body when its argument is defined; otherwise undecorated
arguments are collected as the body. -/
def bodyFromArgs (md : EndpointMetadata) (args : List Val) : Val :=
  match md.parameters.find? (fun p => p.type = ParameterType.request) with
  | some p =>
    if (argGet args p.index).isUndefinedVal then leftoverBody md args
    else argGet args p.index
  | none => leftoverBody md args

/-- The legacy-convention detection: the first argument is a truthy
object carrying at least one of the keys `body`, `query`, `headers`,
`params`. -/
def isLegacyArg : Val → Bool
  | .vobj fields =>
    objHasKey fields "body" || objHasKey fields "query" ||
    objHasKey fields "headers" || objHasKey fields "params"
  | _ => false

/-- `buildRequestContextFromArgs` (src/client): dispatch between the two
calling conventions; the decorator convention initialises the three bags
to `{}` and extracts the body from the bindings. -/
def buildRequestContextFromArgs (md : EndpointMetadata) (args : List Val) :
    RequestContext :=
  match args.head? with
  | some (Val.vobj fields) =>
    if isLegacyArg (.vobj fields) then buildRequestContextFromParams md fields
    else
      { method := md.method
        url := md.config.url
        body := bodyFromArgs md args
        headers := some []
        query := some []
        params := some []
        requestSchema := md.config.requestSchema
        responseSchema := md.config.responseSchema
        errorType := md.config.errorType
        timeout := md.config.timeout
        mapper := md.config.mapper }
  | _ =>
    { method := md.method
      url := md.config.url
      body := bodyFromArgs md args
      headers := some []
      query := some []
      params := some []
      requestSchema := md.config.requestSchema
      responseSchema := md.config.responseSchema
      errorType := md.config.errorType
      timeout := md.config.timeout
      mapper := md.config.mapper }

/-! ### The per-call dispatch pipeline (`createHttpMethod` and its
helpers `validateRequest`, `validateResponse`, `injectParameterValues`,
`executeRequest` in src/client). -/

/-- The request finally handed to axios by `executeRequest`: method,
substituted URL, header/query bags, body, timeout. -/
structure TransportRequest where
  method : HttpMethod
  url : String
  headers : Option Bag
  query : Option Bag
  body : Val
  timeout : Option Nat

/-- An axios response as consumed by the engine (`response.data`). -/
structure AxiosResponse where
  data : Val

/-- One observable step of a call: a user hook invocation or a transport
request.  Hooks are numbered by their registration position. -/
inductive Event where
  | reqHook (i : Nat)
  | transport (r : TransportRequest)
  | respHook (i : Nat)
  | errHook (i : Nat)

/-- Whether the trace contains a transport request. -/
def hasTransportEvent (evs : List Event) : Bool :=
  evs.any (fun e => match e with | .transport _ => true | _ => false)

/-- Whether the trace contains a response-hook invocation. -/
def hasRespHookEvent (evs : List Event) : Bool :=
  evs.any (fun e => match e with | .respHook _ => true | _ => false)

/-- A registered request hook: receives and returns a context, or
throws. -/
abbrev ReqHook := RequestContext → Except ErrVal RequestContext

/-- A registered response hook: receives the result and the context,
returns the (possibly replaced) result, or throws. -/
abbrev RespHook := Val → RequestContext → Except ErrVal Val

/-- A registered error hook: receives the error and the context, returns
the (possibly replaced) error, or throws. -/
abbrev ErrHook := ErrVal → RequestContext → Except ErrVal ErrVal

/-- The hook registry and configuration of one `BaseHttpClient`
instance. -/
structure ClientState where
  config : ClientConfig
  requestHooks : List ReqHook := []
  responseHooks : List RespHook := []
  errorHooks : List ErrHook := []

/-- The request-hook loop `for (hook of this.requestHooks) context = await
hook(context)`: sequential, no protection — a throwing hook aborts the
loop and its exception propagates to the catch block. -/
def runRequestHooks : List ReqHook → RequestContext → Nat →
    Except ErrVal RequestContext × List Event
  | [], ctx, _ => (.ok ctx, [])
  | h :: t, ctx, i =>
    match h ctx with
    | .ok ctx2 =>
      let rest := runRequestHooks t ctx2 (i + 1)
      (rest.1, .reqHook i :: rest.2)
    | .error e => (.error e, [.reqHook i])

/-- The response-hook loop `for (hook of this.responseHooks) responseData
= await hook(responseData, context)`: sequential, unprotected. -/
def runResponseHooks : List RespHook → Val → RequestContext → Nat →
    Except ErrVal Val × List Event
  | [], d, _, _ => (.ok d, [])
  | h :: t, d, ctx, i =>
    match h d ctx with
    | .ok d2 =>
      let rest := runResponseHooks t d2 ctx (i + 1)
      (rest.1, .respHook i :: rest.2)
    | .error e => (.error e, [.respHook i])

/-- The error-hook loop inside the catch block: each hook is wrapped in
its own try/catch, a throwing hook is ignored and the previous error
value is kept. The accumulated `processedError` is returned — the engine
computes it but then rethrows based on the original error. -/
def runErrorHooks : List ErrHook → RequestContext → ErrVal → Nat →
    ErrVal × List Event
  | [], _, pe, _ => (pe, [])
  | h :: t, ctx, pe, i =>
    let pe2 := match h pe ctx with
      | .ok e2 => e2
      | .error _ => pe
    let rest := runErrorHooks t ctx pe2 (i + 1)
    (rest.1, .errHook i :: rest.2)

/-- `validateRequest(context, schema)` (src/client): parse the body only
when it is defined; a `ZodError` becomes a `ValidationError` tagged
`request`, any other validator exception is re-thrown raw. -/
def validateRequest (ctx : RequestContext) (s : Schema) : Except ErrVal Unit :=
  if ctx.body.isUndefinedVal then .ok ()
  else
    match s.parse ctx.body with
    | .ok _ => .ok ()
    | .zodError z => .error (.validation .request z)
    | .thrown e => .error e

/-- `validateResponse(data, schema)` (src/client): returns the parsed
(canonicalized) value; a `ZodError` becomes a `ValidationError` tagged
`response`, any other validator exception is re-thrown raw. -/
def validateResponse (data : Val) (s : Schema) : Except ErrVal Val :=
  match s.parse data with
  | .ok v => .ok v
  | .zodError z => .error (.validation .response z)
  | .thrown e => .error e

/-- The guard at the request-validation step of `createHttpMethod`:
`context.requestSchema && (this.config.validateRequest ??
metadata.config.validateRequest)`. -/
def requestValidationEnabled (cc : ClientConfig) (md : EndpointMetadata) : Bool :=
  truthyOpt (nullishOr cc.validateRequest md.config.validateRequest)

/-- The guard at the response-validation step of `createHttpMethod`:
`context.responseSchema && (this.config.validateResponse ??
metadata.config.validateResponse)`. -/
def responseValidationEnabled (cc : ClientConfig) (md : EndpointMetadata) : Bool :=
  truthyOpt (nullishOr cc.validateResponse md.config.validateResponse)

/-- The request-validation step: runs `validateRequest` exactly when the
(possibly hook-mutated) context carries a request schema and the flag
chain is truthy. -/
def checkRequest (cc : ClientConfig) (md : EndpointMetadata)
    (ctx : RequestContext) : Except ErrVal Unit :=
  match ctx.requestSchema, requestValidationEnabled cc md with
  | some s, true => validateRequest ctx s
  | _, _ => .ok ()

/-- The response-validation step: replaces the payload by the canonical
value exactly when the context carries a response schema and the flag
chain is truthy. -/
def checkResponse (cc : ClientConfig) (md : EndpointMetadata)
    (ctx : RequestContext) (data : Val) : Except ErrVal Val :=
  match ctx.responseSchema, responseValidationEnabled cc md with
  | some s, true => validateResponse data s
  | _, _ => .ok data

/-- URL path-parameter substitution in `executeRequest`: for each entry
of `context.params`, replace the first occurrence of `:key` by
`encodeURIComponent(String(value))`. -/
def substituteParams (url : String) (params : Bag) : String :=
  params.foldl
    (fun u kv => jsReplace u (":" ++ kv.1) (encodeURIComponent (jsString kv.2)))
    url

/-- The axios request config assembled by `executeRequest`. -/
def buildTransportRequest (ctx : RequestContext) : TransportRequest :=
  { method := ctx.method
    url := substituteParams ctx.url (ctx.params.getD [])
    headers := ctx.headers
    query := ctx.query
    body := ctx.body
    timeout := ctx.timeout }

/-- The transport call as seen through the axios interceptors of
`setupInterceptors`: a raw transport failure is offered to the `onError`
config hook — a normal return of that hook resolves the call with its
value as the response, a throwing hook is swallowed — and otherwise
becomes a `NetworkError` carrying the raw message; a raw transport
exception never escapes this layer. -/
def runTransport (onMiss : Option (String → Except ErrVal Val))
    (transport : TransportRequest → Except String AxiosResponse)
    (req : TransportRequest) : Except ErrVal AxiosResponse :=
  match transport req with
  | .ok resp => .ok resp
  | .error msg =>
    match onMiss with
    | some h =>
      match h msg with
      | .ok v => .ok ⟨v⟩
      | .error _ => .error (.network msg)
    | none => .error (.network msg)

/-- The mapper step: `if (context.mapper) responseData =
context.mapper(responseData)`; the mapper may throw. -/
def applyMapper (ctx : RequestContext) (d : Val) : Except ErrVal Val :=
  match ctx.mapper with
  | some m => m d
  | none => .ok d

/-- The injectable values assembled after the response hooks:
`{response, query, headers, params, request}` drawn from the final
response data and the (possibly hook-mutated) context. -/
structure InjectValues where
  response : Val
  query : Option Bag
  headers : Option Bag
  params : Option Bag
  request : Val

/-- Optional-chained keyed bag access `bag?.[key]`: an undefined bag or a
missing key read as `undefined`. -/
def bagGetOpt (bag : Option Bag) (k : String) : Val :=
  match bag with
  | none => .vundefined
  | some b => objGet b k

/-- A whole bag as an injected value (`undefined` when the context field
is undefined). -/
def bagVal (bag : Option Bag) : Val :=
  match bag with
  | none => .vundefined
  | some b => .vobj b

/-- The value resolved for one parameter binding inside
`injectParameterValues`: the whole bag, or `bag[key]` when a key is
declared. -/
def resolveInjectValue (values : InjectValues) (p : ParameterMetadata) : Val :=
  match p.type with
  | .response => values.response
  | .query =>
    match p.key with
    | some k => bagGetOpt values.query k
    | none => bagVal values.query
  | .headers =>
    match p.key with
    | some k => bagGetOpt values.headers k
    | none => bagVal values.headers
  | .params =>
    match p.key with
    | some k => bagGetOpt values.params k
    | none => bagVal values.params
  | .request => values.request

/-- One binding of `injectParameterValues`: the per-parameter schema is
applied only when one is declared and the resolved value is defined; a
`ZodError` becomes a `ValidationError` tagged `request`, any other
validator exception is re-thrown; the (possibly canonicalized) value is
what gets placed into the argument slot. -/
def injectOne (values : InjectValues) (p : ParameterMetadata) :
    Except ErrVal Val :=
  let v := resolveInjectValue values p
  match p.schema with
  | some s =>
    if v.isUndefinedVal then .ok v
    else
      match s.parse v with
      | .ok v2 => .ok v2
      | .zodError z => .error (.validation .request z)
      | .thrown e => .error e
  | none => .ok v

/-- `injectedArgs[i] = v` with JavaScript array-extension semantics
(holes read as `undefined`). -/
def setArg (args : List Val) (i : Nat) (v : Val) : List Val :=
  if i < args.length then args.set i v
  else args ++ List.replicate (i - args.length) Val.vundefined ++ [v]

/-- The `injectParameterValues` loop over the declared bindings, updating
the argument slots in order. -/
def injectParams : List ParameterMetadata → InjectValues → List Val →
    Except ErrVal (List Val)
  | [], _, acc => .ok acc
  | p :: ps, values, acc =>
    match injectOne values p with
    | .ok v => injectParams ps values (setArg acc p.index v)
    | .error e => .error e

/-- The try block of the generated method: request hooks → request
validation → transport → response validation → mapper → response hooks →
parameter injection → original method body (or the response data when no
body exists). -/
def tryPipeline (cc : ClientConfig) (reqHooks : List ReqHook)
    (respHooks : List RespHook) (md : EndpointMetadata)
    (transport : TransportRequest → Except String AxiosResponse)
    (origMethod : Option (List Val → Except ErrVal Val))
    (args : List Val) (ctx0 : RequestContext) :
    Except ErrVal Val × List Event :=
  match runRequestHooks reqHooks ctx0 0 with
  | (.error e, evs) => (.error e, evs)
  | (.ok ctx, evs) =>
    match checkRequest cc md ctx with
    | .error e => (.error e, evs)
    | .ok _ =>
      let req := buildTransportRequest ctx
      match runTransport cc.onMiss transport req with
      | .error e => (.error e, evs ++ [.transport req])
      | .ok resp =>
        match checkResponse cc md ctx resp.data with
        | .error e => (.error e, evs ++ [.transport req])
        | .ok d1 =>
          match applyMapper ctx d1 with
          | .error e => (.error e, evs ++ [.transport req])
          | .ok d2 =>
            match runResponseHooks respHooks d2 ctx 0 with
            | (.error e, revs) => (.error e, evs ++ [.transport req] ++ revs)
            | (.ok d3, revs) =>
              let values : InjectValues :=
                { response := d3
                  query := ctx.query
                  headers := ctx.headers
                  params := ctx.params
                  request := ctx.body }
              match injectParams md.parameters values args with
              | .error e => (.error e, evs ++ [.transport req] ++ revs)
              | .ok injArgs =>
                match origMethod with
                | some f => (f injArgs, evs ++ [.transport req] ++ revs)
                | none => (.ok d3, evs ++ [.transport req] ++ revs)

/-- The classification at the end of the catch block: with a declared
custom error kind, a non-taxonomy error is wrapped as `CustomError`
carrying the original error and the kind name; a taxonomy error is
re-thrown unchanged; anything else is wrapped as a generic
`EXECUTION_ERROR`. -/
def handleError (md : EndpointMetadata) (e : ErrVal) : ErrVal :=
  match md.config.errorType, isHDE e with
  | some t, false => .custom t.name (asError e)
  | _, _ => if isHDE e then e else .execution (asError e)

/-- The result of one call: the value or error the caller receives, and
the event trace. -/
structure CallResult where
  result : Except ErrVal Val
  events : List Event

/-- One invocation of a generated method (`createHttpMethod`): the try
pipeline, and on failure the catch block — error hooks (whose outcome is
computed but discarded) followed by `handleError` on the original
error. -/
def callEndpoint (cs : ClientState) (md : EndpointMetadata)
    (transport : TransportRequest → Except String AxiosResponse)
    (origMethod : Option (List Val → Except ErrVal Val))
    (args : List Val) : CallResult :=
  let ctx0 := buildRequestContextFromArgs md args
  match tryPipeline cs.config cs.requestHooks cs.responseHooks md transport
      origMethod args ctx0 with
  | (.ok v, evs) => ⟨.ok v, evs⟩
  | (.error e, evs) =>
    let hookRun := runErrorHooks cs.errorHooks ctx0 e 0
    ⟨.error (handleError md e), evs ++ hookRun.2⟩

/-! ### Metadata manager (src/metadata): parameter-binding
registration. -/

/-- `MetadataManager.addParameterMetadata`: registering a binding whose
`(index, type)` pair duplicates an existing one throws a
`ConfigurationError`; otherwise the binding is appended. -/
def addParameterMetadata (existing : List ParameterMetadata)
    (pm : ParameterMetadata) : Except ErrVal (List ParameterMetadata) :=
  match existing.find? (fun p => p.index = pm.index ∧ p.type = pm.type) with
  | some _ => .error (.configuration "Duplicate parameter decorator")
  | none => .ok (existing ++ [pm])

/-! ### Helper lemmas shared by the claim theorems. -/

theorem hasTransportEvent_append (a b : List Event) :
    hasTransportEvent (a ++ b) = (hasTransportEvent a || hasTransportEvent b) := by
  simp [hasTransportEvent, List.any_append]

theorem hasRespHookEvent_append (a b : List Event) :
    hasRespHookEvent (a ++ b) = (hasRespHookEvent a || hasRespHookEvent b) := by
  simp [hasRespHookEvent, List.any_append]

theorem runRequestHooks_noTransport (hs : List ReqHook) (ctx : RequestContext)
    (i : Nat) : hasTransportEvent (runRequestHooks hs ctx i).2 = false := by
  induction hs generalizing ctx i with
  | nil => rfl
  | cons h t ih =>
    cases hh : h ctx with
    | ok ctx2 => simp [runRequestHooks, hh, hasTransportEvent] at ih ⊢; exact ih ctx2 (i + 1)
    | error e => simp [runRequestHooks, hh, hasTransportEvent]

theorem runRequestHooks_noRespHook (hs : List ReqHook) (ctx : RequestContext)
    (i : Nat) : hasRespHookEvent (runRequestHooks hs ctx i).2 = false := by
  induction hs generalizing ctx i with
  | nil => rfl
  | cons h t ih =>
    cases hh : h ctx with
    | ok ctx2 => simp [runRequestHooks, hh, hasRespHookEvent] at ih ⊢; exact ih ctx2 (i + 1)
    | error e => simp [runRequestHooks, hh, hasRespHookEvent]

theorem runErrorHooks_noTransport (hs : List ErrHook) (ctx : RequestContext)
    (pe : ErrVal) (i : Nat) :
    hasTransportEvent (runErrorHooks hs ctx pe i).2 = false := by
  induction hs generalizing pe i with
  | nil => rfl
  | cons h t ih =>
    simp only [runErrorHooks, hasTransportEvent, List.any_cons] at ih ⊢
    exact ih _ (i + 1)

theorem runErrorHooks_noRespHook (hs : List ErrHook) (ctx : RequestContext)
    (pe : ErrVal) (i : Nat) :
    hasRespHookEvent (runErrorHooks hs ctx pe i).2 = false := by
  induction hs generalizing pe i with
  | nil => rfl
  | cons h t ih =>
    simp only [runErrorHooks, hasRespHookEvent, List.any_cons] at ih ⊢
    exact ih _ (i + 1)

theorem handleError_isHDE (md : EndpointMetadata) (e : ErrVal) :
    isHDE (handleError md e) = true := by
  unfold handleError
  cases het : md.config.errorType <;> cases he : isHDE e <;>
    simp only [he] <;> first | rfl | exact he

theorem handleError_of_HDE (md : EndpointMetadata) (e : ErrVal)
    (h : isHDE e = true) : handleError md e = e := by
  unfold handleError
  cases md.config.errorType <;> simp [h]

theorem errCode_of_isHDE (e : ErrVal) (h : isHDE e = true) :
    ∃ c, errCode e = some c ∧
      c ∈ ["VALIDATION_ERROR", "NETWORK_ERROR", "CUSTOM_ERROR",
           "EXECUTION_ERROR", "CONFIGURATION_ERROR"] := by
  cases e <;> simp_all [isHDE, errCode]

theorem replaceFirstL_of_not_occurs (pat rep : List Char) (s : List Char)
    (h : occursInL pat s = false) : replaceFirstL pat rep s = s := by
  induction s with
  | nil =>
    simp only [occursInL] at h
    simp [replaceFirstL, h]
  | cons c cs ih =>
    simp only [occursInL, Bool.or_eq_false_iff] at h
    simp [replaceFirstL, h.1, ih h.2]

theorem jsReplace_of_not_occurs (s pat rep : String)
    (h : occursInL pat.data s.data = false) : jsReplace s pat rep = s := by
  unfold jsReplace
  rw [replaceFirstL_of_not_occurs pat.data rep.data s.data h]

theorem substituteParams_of_not_occurs (params : Bag) (url : String)
    (h : ∀ kv ∈ params, occursInL (":" ++ kv.1).data url.data = false) :
    substituteParams url params = url := by
  induction params with
  | nil => rfl
  | cons kv rest ih =>
    have hstep : substituteParams url (kv :: rest)
        = substituteParams
            (jsReplace url (":" ++ kv.1) (encodeURIComponent (jsString kv.2)))
            rest := rfl
    rw [hstep, jsReplace_of_not_occurs url (":" ++ kv.1) _ (h kv (by simp))]
    exact ih (fun kv2 hm => h kv2 (by simp [hm]))

/-! ### Concrete gadgets used by witnesses and counterexamples. -/

/-- A schema that rejects every value with a fixed ZodError. -/
def rejectSchema (z : Nat) : Schema := ⟨fun _ => .zodError z⟩

/-- A transport that always succeeds with `null` data. -/
def okTransport : TransportRequest → Except String AxiosResponse :=
  fun _ => .ok ⟨.vnull⟩

/-- A transport that always fails at the network layer. -/
def failTransport : TransportRequest → Except String AxiosResponse :=
  fun _ => .error "ECONNREFUSED"

/-- An endpoint with only a URL (no schemas, no mapper, no bindings). -/
def plainEndpoint : EndpointMetadata :=
  { method := .get, config := { url := "/x" } }

/-- A POST endpoint with a request schema and a given endpoint-level
`validateRequest` flag. -/
def reqEndpoint (flag : Option Bool) (s : Schema) : EndpointMetadata :=
  { method := .post
    config := { url := "/x", requestSchema := some s, validateRequest := flag } }

/-- A GET endpoint with a response schema and a given endpoint-level
`validateResponse` flag. -/
def respEndpoint (flag : Option Bool) (s : Schema) : EndpointMetadata :=
  { method := .get
    config := { url := "/x", responseSchema := some s, validateResponse := flag } }

/-- A client whose merged config carries the given client-level
`validateRequest` value and no hooks. -/
def clientWithReqFlag (f : Option Bool) : ClientState :=
  { config := { validateRequest := f } }

/-- A client whose merged config carries the given client-level
`validateResponse` value and no hooks. -/
def clientWithRespFlag (f : Option Bool) : ClientState :=
  { config := { validateResponse := f } }

/-- A hook-free client with the default merged config. -/
def plainClient : ClientState := { config := {} }

/-- A legacy-convention argument list carrying a string body. -/
def bodyArgs : List Val := [.vobj [("body", .vstr "payload")]]

/-! ### Claim theorems. -/

/-- C8: each path-parameter entry is substituted into the URL template by
literal first-occurrence replacement of `:name` with the percent-encoded
stringification of its value (`/users/:id` with `id = "42"` gives
`/users/42`, values are percent-encoded), and a placeholder with no
corresponding parameter is left as-is in the URL handed to the transport
rather than raising an error. -/
theorem urlSubstitution_literal_and_lenient :
    substituteParams "/users/:id" [("id", .vstr "42")] = "/users/42"
    ∧ substituteParams "/users/:id/posts/:postId" [("id", .vstr "42")]
        = "/users/42/posts/:postId"
    ∧ substituteParams "/search/:q" [("q", .vstr "a b")] = "/search/a%20b"
    ∧ ∀ (url : String) (params : Bag),
        (∀ kv ∈ params, occursInL (":" ++ kv.1).data url.data = false) →
        substituteParams url params = url := by
  refine ⟨by decide, by decide, by decide, ?_⟩
  intro url params h
  exact substituteParams_of_not_occurs params url h

/-- Witness for C8: an unresolved placeholder survives substitution
untouched when no supplied parameter name occurs in the template. -/
theorem urlSubstitution_witness :
    substituteParams "/users/:id" [("page", .vnum 3)] = "/users/:id" :=
  urlSubstitution_literal_and_lenient.2.2.2 "/users/:id" [("page", .vnum 3)]
    (by decide)

/-- C1: on an endpoint whose (possibly hook-mutated) context carries a
request schema, with request validation enabled, a call whose body is
defined and violates the schema throws a `ValidationError` tagged
`request`, and the transport is never invoked for that call. -/
theorem requestValidation_blocks_transport
    (cs : ClientState) (md : EndpointMetadata)
    (transport : TransportRequest → Except String AxiosResponse)
    (origMethod : Option (List Val → Except ErrVal Val))
    (args : List Val) (ctx : RequestContext) (evs : List Event)
    (s : Schema) (z : Nat)
    (hhooks : runRequestHooks cs.requestHooks
        (buildRequestContextFromArgs md args) 0 = (.ok ctx, evs))
    (hschema : ctx.requestSchema = some s)
    (hflag : requestValidationEnabled cs.config md = true)
    (hbody : ctx.body.isUndefinedVal = false)
    (hviol : s.parse ctx.body = .zodError z) :
    (callEndpoint cs md transport origMethod args).result
        = .error (.validation .request z)
    ∧ hasTransportEvent
        (callEndpoint cs md transport origMethod args).events = false := by
  have hval : validateRequest ctx s = .error (.validation .request z) := by
    unfold validateRequest
    rw [hbody, hviol]
    rfl
  have hcr : checkRequest cs.config md ctx = .error (.validation .request z) := by
    unfold checkRequest
    rw [hschema, hflag]
    exact hval
  have htry : tryPipeline cs.config cs.requestHooks cs.responseHooks md
      transport origMethod args (buildRequestContextFromArgs md args)
      = (.error (.validation .request z), evs) := by
    unfold tryPipeline
    rw [hhooks]
    dsimp only
    rw [hcr]
  unfold callEndpoint
  simp only [htry]
  constructor
  · rw [handleError_of_HDE md (ErrVal.validation .request z) rfl]
  · rw [hasTransportEvent_append, runErrorHooks_noTransport, Bool.or_false]
    have hnt := runRequestHooks_noTransport cs.requestHooks
      (buildRequestContextFromArgs md args) 0
    rw [hhooks] at hnt
    exact hnt

/-- Witness for C1: a concrete client, endpoint, rejecting schema and
body on which the call fails with a request-tagged `ValidationError` and
the transport is never reached. -/
theorem requestValidation_blocks_transport_witness :
    (callEndpoint (clientWithReqFlag (some true))
        (reqEndpoint (some true) (rejectSchema 5)) okTransport none
        bodyArgs).result = .error (.validation .request 5)
    ∧ hasTransportEvent
        (callEndpoint (clientWithReqFlag (some true))
          (reqEndpoint (some true) (rejectSchema 5)) okTransport none
          bodyArgs).events = false :=
  requestValidation_blocks_transport (clientWithReqFlag (some true))
    (reqEndpoint (some true) (rejectSchema 5)) okTransport none bodyArgs
    (buildRequestContextFromArgs (reqEndpoint (some true) (rejectSchema 5))
      bodyArgs)
    [] (rejectSchema 5) 5 rfl rfl rfl rfl rfl

/-- C2: on an endpoint whose context carries a response schema, with
response validation enabled, a transport response whose data violates the
schema makes the call throw a `ValidationError` tagged `response` and no
registered response hook runs for that call; on success the response
payload is replaced by the canonicalized value the validator returned. -/
theorem responseValidation_blocks_hooks_and_canonicalizes
    (cs : ClientState) (md : EndpointMetadata)
    (transport : TransportRequest → Except String AxiosResponse)
    (origMethod : Option (List Val → Except ErrVal Val))
    (args : List Val) (ctx : RequestContext) (evs : List Event)
    (s : Schema) (d : Val)
    (hhooks : runRequestHooks cs.requestHooks
        (buildRequestContextFromArgs md args) 0 = (.ok ctx, evs))
    (hreqok : checkRequest cs.config md ctx = .ok ())
    (htrans : transport (buildTransportRequest ctx) = .ok ⟨d⟩)
    (hschema : ctx.responseSchema = some s)
    (hflag : responseValidationEnabled cs.config md = true) :
    (∀ z : Nat, s.parse d = .zodError z →
      (callEndpoint cs md transport origMethod args).result
          = .error (.validation .response z)
      ∧ hasRespHookEvent
          (callEndpoint cs md transport origMethod args).events = false)
    ∧ (∀ v : Val, s.parse d = .ok v → ctx.mapper = none →
        cs.responseHooks = [] → md.parameters = [] → origMethod = none →
        (callEndpoint cs md transport origMethod args).result = .ok v) := by
  have hrt : runTransport cs.config.onMiss transport (buildTransportRequest ctx)
      = .ok ⟨d⟩ := by
    unfold runTransport
    rw [htrans]
  constructor
  · intro z hviol
    have hcr : checkResponse cs.config md ctx d = .error (.validation .response z) := by
      unfold checkResponse
      rw [hschema, hflag]
      dsimp only
      unfold validateResponse
      rw [hviol]
    have htry : tryPipeline cs.config cs.requestHooks cs.responseHooks md
        transport origMethod args (buildRequestContextFromArgs md args)
        = (.error (.validation .response z),
            evs ++ [.transport (buildTransportRequest ctx)]) := by
      unfold tryPipeline
      rw [hhooks]
      dsimp only
      rw [hreqok]
      dsimp only
      rw [hrt]
      dsimp only
      rw [hcr]
    unfold callEndpoint
    simp only [htry]
    constructor
    · rw [handleError_of_HDE md (ErrVal.validation .response z) rfl]
    · rw [hasRespHookEvent_append, hasRespHookEvent_append,
        runErrorHooks_noRespHook, Bool.or_false]
      have hnr := runRequestHooks_noRespHook cs.requestHooks
        (buildRequestContextFromArgs md args) 0
      rw [hhooks] at hnr
      rw [hnr]
      rfl
  · intro v hcanon hmapper hrhooks hparams horig
    have hcr : checkResponse cs.config md ctx d = .ok v := by
      unfold checkResponse
      rw [hschema, hflag]
      dsimp only
      unfold validateResponse
      rw [hcanon]
    have hm : applyMapper ctx v = .ok v := by
      unfold applyMapper
      rw [hmapper]
    have htry : tryPipeline cs.config cs.requestHooks cs.responseHooks md
        transport origMethod args (buildRequestContextFromArgs md args)
        = (.ok v, evs ++ [.transport (buildTransportRequest ctx)]) := by
      unfold tryPipeline
      rw [hhooks]
      dsimp only
      rw [hreqok]
      dsimp only
      rw [hrt]
      dsimp only
      rw [hcr]
      dsimp only
      rw [hm]
      dsimp only
      rw [hrhooks, hparams, horig]
      simp [runResponseHooks, injectParams]
    unfold callEndpoint
    simp only [htry]

/-- Witness for C2: a concrete endpoint whose rejecting response schema
turns a successful transport response into a response-tagged
`ValidationError` with no response hook running. -/
theorem responseValidation_blocks_hooks_witness :
    (callEndpoint (clientWithRespFlag (some true))
        (respEndpoint (some true) (rejectSchema 7)) okTransport none []).result
      = .error (.validation .response 7)
    ∧ hasRespHookEvent
        (callEndpoint (clientWithRespFlag (some true))
          (respEndpoint (some true) (rejectSchema 7)) okTransport none
          []).events = false :=
  (responseValidation_blocks_hooks_and_canonicalizes
    (clientWithRespFlag (some true)) (respEndpoint (some true) (rejectSchema 7))
    okTransport none []
    (buildRequestContextFromArgs (respEndpoint (some true) (rejectSchema 7)) [])
    [] (rejectSchema 7) .vnull rfl rfl rfl rfl rfl).1 7 rfl

/-- C3: whatever fails during a call — hooks, validators (even ones
throwing non-Zod exceptions), the transport, the mapper, injection, or
the method body — the error the caller receives carries one of the five
engine taxonomy codes; a raw validator or transport exception (which has
no engine code) is never surfaced. -/
theorem caller_receives_taxonomy_error
    (cs : ClientState) (md : EndpointMetadata)
    (transport : TransportRequest → Except String AxiosResponse)
    (origMethod : Option (List Val → Except ErrVal Val))
    (args : List Val) (e : ErrVal)
    (hres : (callEndpoint cs md transport origMethod args).result = .error e) :
    ∃ c, errCode e = some c ∧
      c ∈ ["VALIDATION_ERROR", "NETWORK_ERROR", "CUSTOM_ERROR",
           "EXECUTION_ERROR", "CONFIGURATION_ERROR"] := by
  unfold callEndpoint at hres
  dsimp only at hres
  cases htry : tryPipeline cs.config cs.requestHooks cs.responseHooks md
      transport origMethod args (buildRequestContextFromArgs md args) with
  | mk r evs =>
    rw [htry] at hres
    cases r with
    | ok v =>
      dsimp only at hres
      exact Except.noConfusion hres
    | error e0 =>
      dsimp only at hres
      injection hres with h
      rw [← h]
      exact errCode_of_isHDE _ (handleError_isHDE md e0)

/-- Witness for C3: a network-level transport failure surfaces as a
taxonomy error (here the `NETWORK_ERROR` produced by the response
interceptor). -/
theorem caller_receives_taxonomy_error_witness :
    ∃ c, errCode (.network "ECONNREFUSED") = some c ∧
      c ∈ ["VALIDATION_ERROR", "NETWORK_ERROR", "CUSTOM_ERROR",
           "EXECUTION_ERROR", "CONFIGURATION_ERROR"] :=
  caller_receives_taxonomy_error plainClient plainEndpoint failTransport none
    [] (.network "ECONNREFUSED") rfl

/-- Counterexample to C4: with the client-level `validateRequest` set to
`false` and the endpoint-level flag set to `true`, the claimed precedence
chain `endpoint ?? client` is truthy, the body violates the schema — yet
the call succeeds and the transport is invoked: the code consults the
client flag first, so no request validation runs. -/
theorem validationFlagPrecedence_counterexample :
    nullishOr (reqEndpoint (some true) (rejectSchema 1)).config.validateRequest
        (clientWithReqFlag (some false)).config.validateRequest = some true
    ∧ (rejectSchema 1).parse (.vstr "payload") = .zodError 1
    ∧ (callEndpoint (clientWithReqFlag (some false))
        (reqEndpoint (some true) (rejectSchema 1)) okTransport none
        bodyArgs).result = .ok .vnull
    ∧ hasTransportEvent
        ((callEndpoint (clientWithReqFlag (some false))
          (reqEndpoint (some true) (rejectSchema 1)) okTransport none
          bodyArgs).events) = true :=
  ⟨rfl, rfl, rfl, rfl⟩

/-- C4 (amended): request validation is gated by
`this.config.validateRequest ?? metadata.config.validateRequest` — the
client-level flag takes precedence and the endpoint-level flag is only a
fallback consulted when the client flag is `undefined`; the same
client-first precedence holds for response validation, and the gate is
exactly what decides whether a violating payload produces a
`ValidationError`. -/
theorem validationFlagPrecedence_clientFirst :
    (∀ (cc : ClientConfig) (md : EndpointMetadata) (b : Bool),
        cc.validateRequest = some b → requestValidationEnabled cc md = b)
    ∧ (∀ (cc : ClientConfig) (md : EndpointMetadata),
        cc.validateRequest = none →
        requestValidationEnabled cc md = truthyOpt md.config.validateRequest)
    ∧ (∀ (cc : ClientConfig) (md : EndpointMetadata) (b : Bool),
        cc.validateResponse = some b → responseValidationEnabled cc md = b)
    ∧ (∀ (cc : ClientConfig) (md : EndpointMetadata),
        cc.validateResponse = none →
        responseValidationEnabled cc md = truthyOpt md.config.validateResponse)
    ∧ (∀ (cvr evr : Option Bool) (z : Nat),
        ((callEndpoint (clientWithReqFlag cvr)
            (reqEndpoint evr (rejectSchema z)) okTransport none bodyArgs).result
          = .error (.validation .request z))
        ↔ requestValidationEnabled (clientWithReqFlag cvr).config
            (reqEndpoint evr (rejectSchema z)) = true)
    ∧ (∀ (cvr evr : Option Bool) (z : Nat),
        ((callEndpoint (clientWithRespFlag cvr)
            (respEndpoint evr (rejectSchema z)) okTransport none []).result
          = .error (.validation .response z))
        ↔ responseValidationEnabled (clientWithRespFlag cvr).config
            (respEndpoint evr (rejectSchema z)) = true) := by
  refine ⟨?_, ?_, ?_, ?_, ?_, ?_⟩
  · intro cc md b h
    unfold requestValidationEnabled nullishOr
    rw [h]
    cases b <;> rfl
  · intro cc md h
    unfold requestValidationEnabled nullishOr
    rw [h]
  · intro cc md b h
    unfold responseValidationEnabled nullishOr
    rw [h]
    cases b <;> rfl
  · intro cc md h
    unfold responseValidationEnabled nullishOr
    rw [h]
  · intro cvr evr z
    rcases cvr with _ | cb
    · rcases evr with _ | eb
      · have hres : (callEndpoint (clientWithReqFlag none)
            (reqEndpoint none (rejectSchema z)) okTransport none
            bodyArgs).result = .ok .vnull := rfl
        rw [hres]
        simp [requestValidationEnabled, nullishOr, truthyOpt, clientWithReqFlag,
          reqEndpoint]
      · cases eb
        · have hres : (callEndpoint (clientWithReqFlag none)
              (reqEndpoint (some false) (rejectSchema z)) okTransport none
              bodyArgs).result = .ok .vnull := rfl
          rw [hres]
          simp [requestValidationEnabled, nullishOr, truthyOpt, clientWithReqFlag,
            reqEndpoint]
        · have hres : (callEndpoint (clientWithReqFlag none)
              (reqEndpoint (some true) (rejectSchema z)) okTransport none
              bodyArgs).result = .error (.validation .request z) := rfl
          rw [hres]
          simp [requestValidationEnabled, nullishOr, truthyOpt, clientWithReqFlag,
            reqEndpoint]
    · cases cb
      · have hres : (callEndpoint (clientWithReqFlag (some false))
            (reqEndpoint evr (rejectSchema z)) okTransport none
            bodyArgs).result = .ok .vnull := rfl
        rw [hres]
        simp [requestValidationEnabled, nullishOr, truthyOpt, clientWithReqFlag,
          reqEndpoint]
      · have hres : (callEndpoint (clientWithReqFlag (some true))
            (reqEndpoint evr (rejectSchema z)) okTransport none
            bodyArgs).result = .error (.validation .request z) := rfl
        rw [hres]
        simp [requestValidationEnabled, nullishOr, truthyOpt, clientWithReqFlag,
          reqEndpoint]
  · intro cvr evr z
    rcases cvr with _ | cb
    · rcases evr with _ | eb
      · have hres : (callEndpoint (clientWithRespFlag none)
            (respEndpoint none (rejectSchema z)) okTransport none []).result
            = .ok .vnull := rfl
        rw [hres]
        simp [responseValidationEnabled, nullishOr, truthyOpt, clientWithRespFlag,
          respEndpoint]
      · cases eb
        · have hres : (callEndpoint (clientWithRespFlag none)
              (respEndpoint (some false) (rejectSchema z)) okTransport none
              []).result = .ok .vnull := rfl
          rw [hres]
          simp [responseValidationEnabled, nullishOr, truthyOpt, clientWithRespFlag,
            respEndpoint]
        · have hres : (callEndpoint (clientWithRespFlag none)
              (respEndpoint (some true) (rejectSchema z)) okTransport none
              []).result = .error (.validation .response z) := rfl
          rw [hres]
          simp [responseValidationEnabled, nullishOr, truthyOpt, clientWithRespFlag,
            respEndpoint]
    · cases cb
      · have hres : (callEndpoint (clientWithRespFlag (some false))
            (respEndpoint evr (rejectSchema z)) okTransport none []).result
            = .ok .vnull := rfl
        rw [hres]
        simp [responseValidationEnabled, nullishOr, truthyOpt, clientWithRespFlag,
          respEndpoint]
      · have hres : (callEndpoint (clientWithRespFlag (some true))
            (respEndpoint evr (rejectSchema z)) okTransport none []).result
            = .error (.validation .response z) := rfl
        rw [hres]
        simp [responseValidationEnabled, nullishOr, truthyOpt, clientWithRespFlag,
          respEndpoint]

/-- Witness for C4 (amended): a client-level `false` silences a rejecting
request schema even though the endpoint-level flag is `true`. -/
theorem validationFlagPrecedence_clientFirst_witness :
    requestValidationEnabled (clientWithReqFlag (some false)).config
      (reqEndpoint (some true) (rejectSchema 3)) = false :=
  validationFlagPrecedence_clientFirst.1 (clientWithReqFlag (some false)).config
    (reqEndpoint (some true) (rejectSchema 3)) false rfl

/-- A request hook that always throws a raw error. -/
def throwingReqHook : ReqHook := fun _ => .error (.rawError "hook boom")

/-- Counterexample to C5: a single throwing request hook on an endpoint
whose transport would succeed makes the whole call fail (the thrown value
is classified as `EXECUTION_ERROR`) and the transport is never reached —
the engine does not fall back to the pre-hook context and continue, so
hook processing is aborted for request hooks. -/
theorem hookFailure_counterexample :
    (callEndpoint { config := {}, requestHooks := [throwingReqHook] }
        plainEndpoint okTransport none []).result
      = .error (.execution (.rawError "hook boom"))
    ∧ hasTransportEvent
        ((callEndpoint { config := {}, requestHooks := [throwingReqHook] }
          plainEndpoint okTransport none []).events) = false :=
  ⟨rfl, rfl⟩

/-- C5 (amended): only error hooks are protected — the caller-visible
outcome of a call is entirely independent of the registered error hooks
(in particular an error hook that throws neither aborts processing nor
suppresses the original error, which still propagates), and within the
error-hook loop a throwing hook is skipped with the previous error value
kept; request and response hooks are unprotected: a throwing request or
response hook aborts the pipeline and its exception goes to error
classification. -/
theorem hookFailure_only_error_hooks_protected :
    (∀ (cc : ClientConfig) (rq : List ReqHook) (rs : List RespHook)
        (eh1 eh2 : List ErrHook) (md : EndpointMetadata)
        (transport : TransportRequest → Except String AxiosResponse)
        (origMethod : Option (List Val → Except ErrVal Val)) (args : List Val),
        (callEndpoint ⟨cc, rq, rs, eh1⟩ md transport origMethod args).result
          = (callEndpoint ⟨cc, rq, rs, eh2⟩ md transport origMethod args).result)
    ∧ (∀ (h : ErrHook) (t : List ErrHook) (ctx : RequestContext) (pe : ErrVal)
        (i : Nat) (e2 : ErrVal), h pe ctx = .error e2 →
        (runErrorHooks (h :: t) ctx pe i).1 = (runErrorHooks t ctx pe (i + 1)).1)
    ∧ (∀ (cc : ClientConfig) (h : ReqHook) (rq : List ReqHook)
        (rs : List RespHook) (eh : List ErrHook) (md : EndpointMetadata)
        (transport : TransportRequest → Except String AxiosResponse)
        (origMethod : Option (List Val → Except ErrVal Val)) (args : List Val)
        (e : ErrVal), h (buildRequestContextFromArgs md args) = .error e →
        (callEndpoint ⟨cc, h :: rq, rs, eh⟩ md transport origMethod
            args).result = .error (handleError md e)
        ∧ hasTransportEvent
            ((callEndpoint ⟨cc, h :: rq, rs, eh⟩ md transport origMethod
              args).events) = false)
    ∧ (∀ (h : RespHook) (t : List RespHook) (d : Val) (ctx : RequestContext)
        (i : Nat) (e : ErrVal), h d ctx = .error e →
        runResponseHooks (h :: t) d ctx i = (.error e, [.respHook i])) := by
  refine ⟨?_, ?_, ?_, ?_⟩
  · intro cc rq rs eh1 eh2 md transport origMethod args
    unfold callEndpoint
    dsimp only
    cases htry : tryPipeline cc rq rs md transport origMethod args
        (buildRequestContextFromArgs md args) with
    | mk r evs => cases r <;> rfl
  · intro h t ctx pe i e2 hh
    conv_lhs => rw [runErrorHooks]
    rw [hh]
  · intro cc h rq rs eh md transport origMethod args e hh
    have hrh : runRequestHooks (h :: rq) (buildRequestContextFromArgs md args) 0
        = (.error e, [.reqHook 0]) := by
      unfold runRequestHooks
      rw [hh]
    have htry : tryPipeline cc (h :: rq) rs md transport origMethod args
        (buildRequestContextFromArgs md args)
        = (.error e, [.reqHook 0]) := by
      unfold tryPipeline
      rw [hrh]
    constructor
    · unfold callEndpoint
      dsimp only
      rw [htry]
    · unfold callEndpoint
      dsimp only
      rw [htry]
      dsimp only
      rw [hasTransportEvent_append, runErrorHooks_noTransport, Bool.or_false]
      rfl
  · intro h t d ctx i e hh
    unfold runResponseHooks
    rw [hh]

/-- Witness for C5 (amended): the outcome of a failing call is unchanged
when a throwing error hook is registered, so the original error still
propagates. -/
theorem hookFailure_only_error_hooks_protected_witness :
    (callEndpoint ⟨{}, [], [],
        [fun _ _ => .error (.rawError "error hook boom")]⟩ plainEndpoint
        failTransport none []).result
      = (callEndpoint ⟨{}, [], [], []⟩ plainEndpoint failTransport none
          []).result :=
  hookFailure_only_error_hooks_protected.1 {} [] []
    [fun _ _ => .error (.rawError "error hook boom")] [] plainEndpoint
    failTransport none []

/-- A mapper that always throws a raw (non-taxonomy) error. -/
def boomMapper : Val → Except ErrVal Val := fun _ => .error (.rawError "mapper boom")

/-- An endpoint with a mapper and an optional declared error kind. -/
def mapperEndpoint (et : Option ErrClass) (m : Val → Except ErrVal Val) :
    EndpointMetadata :=
  { method := .get, config := { url := "/x", errorType := et, mapper := some m } }

/-- Counterexample to C6: a raw exception thrown by the mapper reaches
the caller wrapped as an engine `EXECUTION_ERROR`, not unwrapped — the
engine does reclassify mapper exceptions. -/
theorem mapperException_counterexample :
    (callEndpoint plainClient (mapperEndpoint none boomMapper) okTransport
        none []).result = .error (.execution (.rawError "mapper boom"))
    ∧ errCode (.execution (.rawError "mapper boom")) = some "EXECUTION_ERROR"
    ∧ (ErrVal.execution (.rawError "mapper boom")) ≠ .rawError "mapper boom" :=
  ⟨rfl, rfl, by decide⟩

/-- C6 (amended): an exception thrown by the mapper is caught by the
catch block and classified exactly like any other error: re-thrown
unchanged when it is already a taxonomy error, wrapped as `CustomError`
when the endpoint declares a custom error kind, and wrapped as a generic
`EXECUTION_ERROR` otherwise. -/
theorem mapperException_is_classified :
    (∀ (et : Option ErrClass) (m : Val → Except ErrVal Val) (e : ErrVal),
        m .vnull = .error e →
        (callEndpoint plainClient (mapperEndpoint et m) okTransport none
            []).result = .error (handleError (mapperEndpoint et m) e))
    ∧ (∀ (md : EndpointMetadata) (e : ErrVal), md.config.errorType = none →
        isHDE e = false → handleError md e = .execution (asError e))
    ∧ (∀ (md : EndpointMetadata) (t : ErrClass) (e : ErrVal),
        md.config.errorType = some t → isHDE e = false →
        handleError md e = .custom t.name (asError e))
    ∧ (∀ (md : EndpointMetadata) (e : ErrVal), isHDE e = true →
        handleError md e = e) := by
  refine ⟨?_, ?_, ?_, ?_⟩
  · intro et m e hm
    have h5 : (buildRequestContextFromArgs (mapperEndpoint et m) []).mapper
        = some m := rfl
    have htry : tryPipeline plainClient.config plainClient.requestHooks
        plainClient.responseHooks (mapperEndpoint et m) okTransport none []
        (buildRequestContextFromArgs (mapperEndpoint et m) [])
        = (.error e,
           [.transport (buildTransportRequest
              (buildRequestContextFromArgs (mapperEndpoint et m) []))]) := by
      unfold tryPipeline
      have h1 : runRequestHooks plainClient.requestHooks
          (buildRequestContextFromArgs (mapperEndpoint et m) []) 0
          = (.ok (buildRequestContextFromArgs (mapperEndpoint et m) []), []) := rfl
      rw [h1]
      dsimp only
      have h2 : checkRequest plainClient.config (mapperEndpoint et m)
          (buildRequestContextFromArgs (mapperEndpoint et m) []) = .ok () := rfl
      rw [h2]
      dsimp only
      have h3 : runTransport plainClient.config.onMiss okTransport
          (buildTransportRequest
            (buildRequestContextFromArgs (mapperEndpoint et m) []))
          = .ok ⟨.vnull⟩ := rfl
      rw [h3]
      dsimp only
      have h4 : checkResponse plainClient.config (mapperEndpoint et m)
          (buildRequestContextFromArgs (mapperEndpoint et m) []) Val.vnull
          = .ok .vnull := rfl
      rw [h4]
      dsimp only
      unfold applyMapper
      rw [h5]
      dsimp only
      rw [hm]
      rfl
    unfold callEndpoint
    dsimp only
    rw [htry]
  · intro md e het he
    unfold handleError
    rw [het, he]
    rfl
  · intro md t e het he
    unfold handleError
    rw [het, he]
  · intro md e he
    exact handleError_of_HDE md e he

/-- Witness for C6 (amended): with a declared error kind, a raw mapper
exception surfaces as `CustomError` wrapping the original error. -/
theorem mapperException_is_classified_witness :
    (callEndpoint plainClient
        (mapperEndpoint (some ⟨"NotFoundError"⟩) boomMapper) okTransport none
        []).result
      = .error (handleError (mapperEndpoint (some ⟨"NotFoundError"⟩) boomMapper)
          (.rawError "mapper boom")) :=
  mapperException_is_classified.1 (some ⟨"NotFoundError"⟩) boomMapper
    (.rawError "mapper boom") rfl

/-- C7: when the endpoint declares a custom error kind, a non-taxonomy
error reaching error handling is wrapped as `CustomError` carrying the
original error and the declared kind name, while an error that is already
an `HttpDecoratorError` is re-thrown unchanged and never re-wrapped; and
every error a call surfaces passes through exactly this classifier. -/
theorem customError_wraps_only_nonTaxonomy :
    (∀ (md : EndpointMetadata) (t : ErrClass) (e : ErrVal),
        md.config.errorType = some t →
        (isHDE e = false → handleError md e = .custom t.name (asError e))
        ∧ (isHDE e = true → handleError md e = e))
    ∧ (∀ (cs : ClientState) (md : EndpointMetadata)
        (transport : TransportRequest → Except String AxiosResponse)
        (origMethod : Option (List Val → Except ErrVal Val)) (args : List Val)
        (e : ErrVal) (evs : List Event),
        tryPipeline cs.config cs.requestHooks cs.responseHooks md transport
            origMethod args (buildRequestContextFromArgs md args)
          = (.error e, evs) →
        (callEndpoint cs md transport origMethod args).result
          = .error (handleError md e)) := by
  constructor
  · intro md t e het
    constructor
    · intro he
      unfold handleError
      rw [het, he]
    · intro he
      exact handleError_of_HDE md e he
  · intro cs md transport origMethod args e evs htry
    unfold callEndpoint
    dsimp only
    rw [htry]

/-- Witness for C7: with a declared kind `AuthError`, a raw error is
wrapped as `CustomError` while a `NetworkError` passes through
unchanged. -/
theorem customError_wraps_only_nonTaxonomy_witness :
    handleError (mapperEndpoint (some ⟨"AuthError"⟩) boomMapper)
        (.rawError "x") = .custom "AuthError" (.rawError "x")
    ∧ handleError (mapperEndpoint (some ⟨"AuthError"⟩) boomMapper)
        (.network "down") = .network "down" :=
  ⟨(customError_wraps_only_nonTaxonomy.1 _ ⟨"AuthError"⟩ (.rawError "x")
      rfl).1 rfl,
   (customError_wraps_only_nonTaxonomy.1 _ ⟨"AuthError"⟩ (.network "down")
      rfl).2 rfl⟩

/-- C9: registering a parameter binding whose argument index and role
both match an already-registered binding for the method throws a
`ConfigurationError`, while a binding that differs in index or role is
appended successfully. -/
theorem duplicateBinding_configurationError
    (existing : List ParameterMetadata) (pm : ParameterMetadata) :
    ((∃ p ∈ existing, p.index = pm.index ∧ p.type = pm.type) →
      addParameterMetadata existing pm
        = .error (.configuration "Duplicate parameter decorator"))
    ∧ ((∀ p ∈ existing, ¬(p.index = pm.index ∧ p.type = pm.type)) →
      addParameterMetadata existing pm = .ok (existing ++ [pm])) := by
  unfold addParameterMetadata
  cases hf : existing.find?
      (fun p => p.index = pm.index ∧ p.type = pm.type) with
  | some q =>
    constructor
    · intro _
      rfl
    · intro hall
      exfalso
      have hq := List.mem_of_find?_eq_some hf
      have hpred := List.find?_some hf
      simp only [decide_eq_true_eq] at hpred
      exact hall q hq hpred
  | none =>
    constructor
    · intro hex
      exfalso
      obtain ⟨p, hp, hcond⟩ := hex
      have hnp := List.find?_eq_none.mp hf p hp
      simp only [decide_eq_true_eq] at hnp
      exact hnp hcond
    · intro _
      rfl

/-- Witness for C9: a concrete duplicate `(index 0, query)` is rejected
with a `ConfigurationError`, while the same index with a different role
and the same role at a different index are both appended. -/
theorem duplicateBinding_configurationError_witness :
    addParameterMetadata [⟨0, .query, none, none⟩] ⟨0, .query, some "page", none⟩
      = .error (.configuration "Duplicate parameter decorator")
    ∧ addParameterMetadata [⟨0, .query, none, none⟩] ⟨0, .headers, none, none⟩
      = .ok ([⟨0, .query, none, none⟩] ++ [⟨0, .headers, none, none⟩])
    ∧ addParameterMetadata [⟨0, .query, none, none⟩] ⟨1, .query, none, none⟩
      = .ok ([⟨0, .query, none, none⟩] ++ [⟨1, .query, none, none⟩]) :=
  ⟨(duplicateBinding_configurationError [⟨0, .query, none, none⟩]
      ⟨0, .query, some "page", none⟩).1
      ⟨⟨0, .query, none, none⟩, by simp, rfl, rfl⟩,
   (duplicateBinding_configurationError [⟨0, .query, none, none⟩]
      ⟨0, .headers, none, none⟩).2
      (by intro p hp; simp only [List.mem_singleton] at hp; subst hp; simp),
   (duplicateBinding_configurationError [⟨0, .query, none, none⟩]
      ⟨1, .query, none, none⟩).2
      (by intro p hp; simp only [List.mem_singleton] at hp; subst hp; simp)⟩

/-- C10: during parameter injection, when the resolved value for a
binding is `undefined` the per-parameter schema is silently skipped —
`undefined` is placed into the argument slot and no `ValidationError` is
raised, whatever the schema would say about `undefined`. -/
theorem undefinedInjection_skips_schema
    (values : InjectValues) (p : ParameterMetadata)
    (hres : resolveInjectValue values p = .vundefined) :
    injectOne values p = .ok .vundefined
    ∧ ∀ args : List Val,
        injectParams [p] values args = .ok (setArg args p.index .vundefined) := by
  have h1 : injectOne values p = .ok .vundefined := by
    unfold injectOne
    rw [hres]
    cases p.schema <;> rfl
  refine ⟨h1, ?_⟩
  intro args
  simp [injectParams, h1]

/-- Witness for C10: a keyed query binding whose key is absent from the
bag resolves to `undefined` and is injected as-is, although its declared
schema rejects every value — including `undefined`. -/
theorem undefinedInjection_skips_schema_witness :
    (rejectSchema 9).parse .vundefined = .zodError 9
    ∧ injectOne ⟨.vnull, some [], none, none, .vnull⟩
        ⟨2, .query, some "missing", some (rejectSchema 9)⟩ = .ok .vundefined :=
  ⟨rfl,
   (undefinedInjection_skips_schema ⟨.vnull, some [], none, none, .vnull⟩
      ⟨2, .query, some "missing", some (rejectSchema 9)⟩ rfl).1⟩

end HttpxSpec
